import Mathlib

/-!
Shallow embedding of the `generate_counter!` macro from `src/lib.rs` of the
`count` crate.  The macro expands, for a name and a primitive integer type,
into a module holding a `thread_local!` cell `COUNTER : Cell<$type>`
initialized to `Cell::new(0)`, with three operations:

* `next()`  — reads the cell value `n`, stores `n + 1`, returns `n`;
* `set(n)`  — stores `n`;
* `reset()` — stores `0`.

A value of a `w`-bit integer type is embedded as its bit pattern, a natural
number below `2 ^ w`; the fixed-width increment `n + 1` is embedded with its
native wraparound as `(n + 1) % 2 ^ w`.  Each macro invocation owns its own
static cell and `thread_local!` gives one cell per thread, so global storage
is a map from (counter id, thread id) to the cell contents.
-/

namespace Count

/-- Contents given to a cell by `Cell::new(0)` (lib.rs line 31). -/
def cellNew : Nat := 0

/-- Body of `next()` (lib.rs lines 34-40) acting on the contents of the
calling thread's cell: reads `n`, stores `n + 1` with the `w`-bit type's
native wraparound, and returns `n`.  Result: (returned value, new contents). -/
def next (w : Nat) (cell : Nat) : Nat × Nat :=
  let n := cell
  (n, (n + 1) % 2 ^ w)

/-- Body of `set(n)` (lib.rs lines 43-45): `cell.set(n)` replaces the
contents with `n`. -/
def set (n _cell : Nat) : Nat := n

/-- Body of `reset()` (lib.rs lines 48-50): `cell.set(0)` replaces the
contents with `0`. -/
def reset (_cell : Nat) : Nat := 0

/-- Identifier of one generated counter module (one per `generate_counter!`
invocation). -/
abbrev CounterId := Nat

/-- Identifier of an execution thread. -/
abbrev ThreadId := Nat

/-- Global storage: each generated counter has one `thread_local!` `COUNTER`
cell per thread (lib.rs lines 30-32). -/
def TLS := CounterId → ThreadId → Nat

/-- Storage before any operation: every cell holds `Cell::new(0)`
(lazily initialized, observably equivalent to all cells holding `0`). -/
def initTLS : TLS := fun _ _ => cellNew

/-- `next()` called on thread `t` of counter `c`: `COUNTER.with` runs the
body of `next` on that thread's cell of that counter, leaving every other
cell untouched. -/
def nextOn (w : Nat) (c : CounterId) (t : ThreadId) (σ : TLS) : Nat × TLS :=
  let r := next w (σ c t)
  (r.1, fun c2 t2 => if c2 = c ∧ t2 = t then r.2 else σ c2 t2)

/-- `set(n)` called on thread `t` of counter `c`. -/
def setOn (c : CounterId) (t : ThreadId) (n : Nat) (σ : TLS) : TLS :=
  fun c2 t2 => if c2 = c ∧ t2 = t then set n (σ c t) else σ c2 t2

/-- `reset()` called on thread `t` of counter `c`. -/
def resetOn (c : CounterId) (t : ThreadId) (σ : TLS) : TLS :=
  fun c2 t2 => if c2 = c ∧ t2 = t then reset (σ c t) else σ c2 t2

/-- The list of values returned by `N` successive `next()` calls on a cell
holding `s`. -/
def nexts (w : Nat) : Nat → Nat → List Nat
  | 0, _ => []
  | N + 1, s => (next w s).1 :: nexts w N (next w s).2

/-- The list of values returned by `N` successive `next()` calls on thread
`t` of counter `c`, starting from storage `σ`. -/
def nextsOn (w : Nat) (c : CounterId) (t : ThreadId) : Nat → TLS → List Nat
  | 0, _ => []
  | N + 1, σ => (nextOn w c t σ).1 :: nextsOn w c t N (nextOn w c t σ).2

/-- One of the three operations of a generated module. -/
inductive Op where
  | next : Op
  | set (n : Nat) : Op
  | reset : Op

/-- One operation as a transition relation on the calling thread's cell,
together with the value it returns (`none` for `set` and `reset`, which
return `()`), each transition given by the corresponding embedded body. -/
inductive Step (w : Nat) : Nat → Op → Option Nat → Nat → Prop
  | next (s : Nat) : Step w s Op.next (some (Count.next w s).1) (Count.next w s).2
  | set (s n : Nat) : Step w s (Op.set n) none (Count.set n s)
  | reset (s : Nat) : Step w s Op.reset none (Count.reset s)

/-- A sequence of operations run on one cell: `Run w s ops os s2` says the
operations `ops`, started on a cell holding `s`, return the values `os` and
leave the cell holding `s2`. -/
inductive Run (w : Nat) : Nat → List Op → List (Option Nat) → Nat → Prop
  | nil (s : Nat) : Run w s [] [] s
  | cons {s s1 s2 : Nat} {op : Op} {o : Option Nat} {ops : List Op}
      {os : List (Option Nat)} :
      Step w s op o s1 → Run w s1 ops os s2 → Run w s (op :: ops) (o :: os) s2

/-- Each operation has exactly one outcome from a given cell value. -/
theorem step_det {w s : Nat} {op : Op} {o1 o2 : Option Nat} {s1 s2 : Nat}
    (h1 : Step w s op o1 s1) (h2 : Step w s op o2 s2) : o1 = o2 ∧ s1 = s2 := by
  cases h1 <;> cases h2 <;> exact ⟨rfl, rfl⟩

/-- Reading the cell of `nextsOn` through the storage map: the trace on
thread `t` of counter `c` only depends on that one cell. -/
theorem nextsOn_eq_nexts (w : Nat) (c : CounterId) (t : ThreadId) :
    ∀ (N : Nat) (σ : TLS), nextsOn w c t N σ = nexts w N (σ c t) := by
  intro N
  induction N with
  | zero => intro σ; rfl
  | succ N ih =>
    intro σ
    show (nextOn w c t σ).1 :: nextsOn w c t N (nextOn w c t σ).2 = _
    rw [ih]
    simp [nextOn, next, nexts]

/-- Closed form of the trace of `N` `next()` calls from a cell holding a
value `s` of the type. -/
theorem nexts_eq_range (w : Nat) :
    ∀ (N s : Nat), s < 2 ^ w →
      nexts w N s = (List.range N).map (fun i => (s + i) % 2 ^ w) := by
  intro N
  induction N with
  | zero => intro s _; rfl
  | succ N ih =>
    intro s hs
    have hpos : 0 < 2 ^ w := Nat.pow_pos (by decide)
    show (next w s).1 :: nexts w N (next w s).2 = _
    rw [show (next w s).1 = s from rfl, show (next w s).2 = (s + 1) % 2 ^ w from rfl,
      ih ((s + 1) % 2 ^ w) (Nat.mod_lt _ hpos), List.range_succ_eq_map,
      List.map_cons, List.map_map]
    congr 1
    · simp [Nat.mod_eq_of_lt hs]
    · apply List.map_congr_left
      intro i _
      show ((s + 1) % 2 ^ w + i) % 2 ^ w = (s + (i + 1)) % 2 ^ w
      rw [Nat.mod_add_mod]
      congr 1
      omega

end Count

namespace Count

/-- Claim C1: for every starting value `v` of the chosen integer type, a call
to `next()` returns `v` (the value current before the call) and leaves the
stored per-thread value equal to `v + 1` under the type's native increment
semantics. -/
theorem next_returns_current_then_stores_succ (w : Nat) (c : CounterId)
    (t : ThreadId) (σ : TLS) (v : Nat) (h : σ c t = v) :
    (nextOn w c t σ).1 = v ∧ (nextOn w c t σ).2 c t = (v + 1) % 2 ^ w := by
  subst h
  exact ⟨rfl, by simp [nextOn, next]⟩

/-- Witness for C1 at `w = 8`, a cell holding `7`. -/
theorem next_returns_current_then_stores_succ_witness :
    (nextOn 8 0 0 (fun _ _ => 7)).1 = 7 ∧
      (nextOn 8 0 0 (fun _ _ => 7)).2 0 0 = (7 + 1) % 2 ^ 8 :=
  next_returns_current_then_stores_succ 8 0 0 (fun _ _ => 7) 7 rfl

/-- Claim C2: on a freshly created counter (no prior operation on that
thread, so the cell holds the type's zero value) calling `next()` `N` times
in sequence returns exactly the sequence `0, 1, ..., N - 1`, subject to the
type's overflow wraparound once the sequence exceeds the type's maximum. -/
theorem fresh_counter_yields_range (w : Nat) (c : CounterId) (t : ThreadId)
    (N : Nat) :
    nextsOn w c t N initTLS = (List.range N).map (fun i => i % 2 ^ w) := by
  rw [nextsOn_eq_nexts]
  have h0 : initTLS c t = 0 := rfl
  rw [h0]
  have := nexts_eq_range w N 0 (Nat.pow_pos (by decide))
  simpa using this

/-- Claim C3: for every value `n` within the chosen type's range and every
prior counter state, calling `set(n)` followed by `next()` returns `n`, and
the `next()` call after that returns `n + 1` (wrapping per the type's
rules). -/
theorem set_then_next_returns_n_then_succ (w : Nat) (c : CounterId)
    (t : ThreadId) (σ : TLS) (n : Nat) (h : n < 2 ^ w) :
    (nextOn w c t (setOn c t n σ)).1 = n ∧
      (nextOn w c t (nextOn w c t (setOn c t n σ)).2).1 = (n + 1) % 2 ^ w := by
  constructor
  · simp [nextOn, next, setOn, set]
  · simp [nextOn, next, setOn, set]

/-- Witness for C3 at `w = 8`, `n = 41`, from a cell holding `5`. -/
theorem set_then_next_returns_n_then_succ_witness :
    (nextOn 8 0 0 (setOn 0 0 41 (fun _ _ => 5))).1 = 41 ∧
      (nextOn 8 0 0 (nextOn 8 0 0 (setOn 0 0 41 (fun _ _ => 5))).2).1 =
        (41 + 1) % 2 ^ 8 :=
  set_then_next_returns_n_then_succ 8 0 0 (fun _ _ => 5) 41 (by decide)

/-- Claim C4: when the stored value is the type's maximum representable
value, `next()` returns that maximum and the stored value afterwards is the
type's minimum (wraparound); concretely, for an 8-bit unsigned counter,
after `set(255)` a call to `next()` returns `255` and the stored value is
then `0`. -/
theorem next_at_max_wraps_to_zero (w : Nat) (c : CounterId) (t : ThreadId)
    (σ : TLS) (h : σ c t = 2 ^ w - 1) :
    ((nextOn w c t σ).1 = 2 ^ w - 1 ∧ (nextOn w c t σ).2 c t = 0) ∧
      (nextOn 8 c t (setOn c t 255 σ)).1 = 255 ∧
        (nextOn 8 c t (setOn c t 255 σ)).2 c t = 0 := by
  have hear : 0 < 2 ^ w := Nat.pow_pos (by decide)
  refine ⟨⟨?_, ?_⟩, ?_, ?_⟩
  · simpa [nextOn, next] using h
  · have hsum : 2 ^ w - 1 + 1 = 2 ^ w := Nat.succ_pred_eq_of_pos hear
    simp [nextOn, next, h, hsum]
  · simp [nextOn, next, setOn, set]
  · simp [nextOn, next, setOn, set]

/-- Witness for C4 at `w = 8`, a cell holding `255 = 2 ^ 8 - 1`. -/
theorem next_at_max_wraps_to_zero_witness :
    ((nextOn 8 0 0 (fun _ _ => 255)).1 = 2 ^ 8 - 1 ∧
        (nextOn 8 0 0 (fun _ _ => 255)).2 0 0 = 0) ∧
      (nextOn 8 0 0 (setOn 0 0 255 (fun _ _ => 255))).1 = 255 ∧
        (nextOn 8 0 0 (setOn 0 0 255 (fun _ _ => 255))).2 0 0 = 0 :=
  next_at_max_wraps_to_zero 8 0 0 (fun _ _ => 255) (by decide)

/-- Claim C5: `next()`, `set(n)` and `reset()` are total over their valid
input domains and never produce an error: each is a total function in the
embedding, and from any in-range stored value (including the type's maximum)
each yields a defined result whose stored value is again a valid value of
the type. -/
theorem ops_total_and_preserve_range (w : Nat) (c : CounterId) (t : ThreadId)
    (σ : TLS) (n : Nat) (hσ : σ c t < 2 ^ w) (hn : n < 2 ^ w) :
    (nextOn w c t σ).1 < 2 ^ w ∧ (nextOn w c t σ).2 c t < 2 ^ w ∧
      setOn c t n σ c t < 2 ^ w ∧ resetOn c t σ c t < 2 ^ w := by
  have hpos : 0 < 2 ^ w := Nat.pow_pos (by decide)
  refine ⟨?_, ?_, ?_, ?_⟩
  · simpa [nextOn, next] using hσ
  · simpa [nextOn, next] using Nat.mod_lt (σ c t + 1) hpos
  · simpa [setOn, set] using hn
  · simpa [resetOn, reset] using hpos

/-- Witness for C5 at `w = 8`, a cell holding the maximum `255`, `n = 17`. -/
theorem ops_total_and_preserve_range_witness :
    (nextOn 8 0 0 (fun _ _ => 255)).1 < 2 ^ 8 ∧
      (nextOn 8 0 0 (fun _ _ => 255)).2 0 0 < 2 ^ 8 ∧
        setOn 0 0 17 (fun _ _ => 255) 0 0 < 2 ^ 8 ∧
          resetOn 0 0 (fun _ _ => 255) 0 0 < 2 ^ 8 :=
  ops_total_and_preserve_range 8 0 0 (fun _ _ => 255) 17 (by decide) (by decide)

/-- Claim C6: for every prior counter state, after calling `reset()` the
next call to `next()` returns `0`; and calling `reset()` twice in a row
leaves the counter in the same state as calling it once (idempotence). -/
theorem reset_makes_next_zero_and_idempotent (w : Nat) (c : CounterId)
    (t : ThreadId) (σ : TLS) :
    (nextOn w c t (resetOn c t σ)).1 = 0 ∧
      resetOn c t (resetOn c t σ) = resetOn c t σ := by
  constructor
  · simp [nextOn, next, resetOn, reset]
  · funext c2 t2
    by_cases h : c2 = c ∧ t2 = t <;> simp [resetOn, reset, h]

/-- Claim C7: for every counter state, `reset()` produces exactly the same
resulting state (and same absence of return value) as `set(0)`: the two
operations are extensionally equal. -/
theorem reset_extensionally_set_zero (c : CounterId) (t : ThreadId)
    (σ : TLS) : resetOn c t σ = setOn c t 0 σ := by
  funext c2 t2
  by_cases h : c2 = c ∧ t2 = t <;> simp [resetOn, reset, setOn, set, h]

/-- Claim C8: for every pair of distinct threads using the same generated
counter, one thread's `next()`/`set()`/`reset()` calls never change the
value observed by the other thread. -/
theorem thread_isolation (w : Nat) (c : CounterId) (t t2 : ThreadId)
    (σ : TLS) (n : Nat) (h : t2 ≠ t) :
    (nextOn w c t σ).2 c t2 = σ c t2 ∧ setOn c t n σ c t2 = σ c t2 ∧
      resetOn c t σ c t2 = σ c t2 := by
  refine ⟨?_, ?_, ?_⟩ <;> simp [nextOn, next, setOn, set, resetOn, reset, h]

/-- Witness for C8 at `w = 8`, threads `1 ≠ 0`, a cell map holding `9`. -/
theorem thread_isolation_witness :
    (nextOn 8 0 0 (fun _ _ => 9)).2 0 1 = 9 ∧
      setOn 0 0 23 (fun _ _ => 9) 0 1 = 9 ∧
        resetOn 0 0 (fun _ _ => 9) 0 1 = 9 :=
  thread_isolation 8 0 0 1 (fun _ _ => 9) 23 (by decide)

/-- Claim C9: each `generate_counter!` invocation owns its own independent
storage cell: for every pair of distinct generated counters, any
`next()`/`set()`/`reset()` call on one leaves the stored value of the other
unchanged, even on the same thread. -/
theorem counter_isolation (w : Nat) (c c2 : CounterId) (t t2 : ThreadId)
    (σ : TLS) (n : Nat) (h : c2 ≠ c) :
    (nextOn w c t σ).2 c2 t2 = σ c2 t2 ∧ setOn c t n σ c2 t2 = σ c2 t2 ∧
      resetOn c t σ c2 t2 = σ c2 t2 := by
  refine ⟨?_, ?_, ?_⟩ <;> simp [nextOn, next, setOn, set, resetOn, reset, h]

/-- Witness for C9 at `w = 8`, counters `1 ≠ 0`, same thread `0`. -/
theorem counter_isolation_witness :
    (nextOn 8 0 0 (fun _ _ => 9)).2 1 0 = 9 ∧
      setOn 0 0 23 (fun _ _ => 9) 1 0 = 9 ∧
        resetOn 0 0 (fun _ _ => 9) 1 0 = 9 :=
  counter_isolation 8 0 1 0 0 (fun _ _ => 9) 23 (by decide)

/-- Claim C10: the generated operations are deterministic: for every
starting stored value and every sequence of `next()`/`set(n)`/`reset()`
calls, two runs of that same sequence from that same starting value produce
identical returned values and an identical final stored value. -/
theorem run_deterministic (w s : Nat) (ops : List Op)
    (os1 os2 : List (Option Nat)) (s1 s2 : Nat)
    (h1 : Run w s ops os1 s1) (h2 : Run w s ops os2 s2) :
    os1 = os2 ∧ s1 = s2 := by
  induction h1 generalizing os2 s2 with
  | nil s => cases h2; exact ⟨rfl, rfl⟩
  | cons hs hr ih =>
    cases h2 with
    | cons hs2 hr2 =>
      obtain ⟨ho, hst⟩ := step_det hs hs2
      subst ho
      subst hst
      obtain ⟨h3, h4⟩ := ih _ _ hr2
      exact ⟨by rw [h3], h4⟩

/-- Witness for C10: the run `[next, reset]` from cell value `5` at
`w = 8`. -/
theorem run_deterministic_witness :
    [some 5, Option.none] = [some 5, Option.none] ∧ (0 : Nat) = 0 := by
  have h : Run 8 5 [Op.next, Op.reset] [some 5, Option.none] 0 := by
    have hn : Step 8 5 Op.next (some 5) 6 := by
      have := @Step.next 8 5
      simpa [next] using this
    have hr : Step 8 6 Op.reset Option.none 0 := Step.reset 6
    exact Run.cons hn (Run.cons hr (Run.nil 0))
  exact run_deterministic 8 5 [Op.next, Op.reset] _ _ _ _ h h

end Count
